import Mathlib

/-!
Verification development for the cateye gaze-classification adapter layer
(src/cateye/cateye.py).

Modelling conventions:
* numpy float arrays are modelled as lists of rationals; numpy float
  arithmetic is idealised as exact rational arithmetic.
* The two classification backends (nslr_hmm and remodnav) are opaque
  external collaborators; they are modelled as function parameters, so
  every theorem quantifies over an arbitrary deterministic backend.
* Python dicts with literal keys are modelled as association lists;
  a failing key lookup (Python KeyError) is modelled as an error value
  of type CateyeError, and exceptions in general as Except.
* The helpers discrete_to_continuous / continuous_to_discrete live in
  src/cateye/utils.py, which is not part of the provided sources; they
  are modelled from the spec (see their doc comments).
-/

namespace Cateye

/-- Element-wise consecutive differences, modelling the numpy expression
times[1:] - times[:-1]: entry k is ts[k+1] - ts[k]. -/
def diffsQ (ts : List ℚ) : List ℚ :=
  List.zipWith (fun a b => a - b) ts.tail ts

/-- Arithmetic mean, modelling np.mean (the empty case, nan in numpy, is
mapped to 0 by rational division by zero; no claim depends on it). -/
def meanQ (xs : List ℚ) : ℚ :=
  xs.sum / (xs.length : ℚ)

/-- Population variance, modelling np.std squared.  The source compares
np.std(d) > 1e-5; since both sides are nonnegative this is equivalent to
variance(d) > 1e-10, which avoids square roots. -/
def varianceQ (xs : List ℚ) : ℚ :=
  meanQ (xs.map (fun x => (x - meanQ xs) ^ 2))

/-- Model of np.arange(0, stop, step) for positive step: the values
k * step for k = 0, 1, ..., ceil(stop / step) - 1. -/
def arangeQ (stop step : ℚ) : List ℚ :=
  (List.range (Int.ceil (stop / step)).toNat).map (fun k : ℕ => (k : ℚ) * step)

/-- Model of the shared time-argument resolution in both classifiers
(cateye.py lines 77 and 153):
times = np.array(time) if hasattr(time, '__iter__') else np.arange(0, len(x), 1/time).
The sum type distinguishes an explicit vector (inl) from a scalar rate (inr);
n is len(x). -/
def resolveTimes : List ℚ ⊕ ℚ → ℕ → List ℚ
  | Sum.inl v, _ => v
  | Sum.inr r, n => arangeQ (n : ℚ) (1 / r)

/-- Constant from the external nslr_hmm package. -/
def FIXATION : ℕ := 1

/-- Constant from the external nslr_hmm package. -/
def SACCADE : ℕ := 2

/-- Constant from the external nslr_hmm package. -/
def PSO : ℕ := 3

/-- Constant from the external nslr_hmm package. -/
def SMOOTH_PURSUIT : ℕ := 4

/-- Model of the CLASSES dict (cateye.py lines 18-22).  Keys are the
nslr_hmm per-segment class ids, plus the Python None sentinel for
unclassified samples, modelled as Option.none. -/
def CLASSES : List (Option ℕ × String) :=
  [(some FIXATION, "Fixation"),
   (some SACCADE, "Saccade"),
   (some SMOOTH_PURSUIT, "Smooth Pursuit"),
   (some PSO, "PSO"),
   (none, "None")]

/-- Model of the REMODNAV_CLASSES dict (cateye.py lines 24-29). -/
def REMODNAV_CLASSES : List (String × String) :=
  [("FIXA", "Fixation"), ("SACC", "Saccade"),
   ("ISAC", "ISaccade"), ("PURS", "Smooth Pursuit"),
   ("HPSO", "High-Velocity PSO"),
   ("LPSO", "Low-Velocity PSO"),
   ("IHPS", "High-Velocity PSO (NCB)"),
   ("ILPS", "Low-Velocity PSO (NCB)")]

/-- Model of the REMODNAV_SIMPLE dict (cateye.py lines 31-34). -/
def REMODNAV_SIMPLE : List (String × String) :=
  [("FIXA", "Fixation"), ("SACC", "Saccade"),
   ("ISAC", "Saccade"), ("PURS", "Smooth Pursuit"),
   ("HPSO", "PSO"), ("LPSO", "PSO"),
   ("IHPS", "PSO"), ("ILPS", "PSO")]

/-- Errors raised by the adapter layer.  unknownLabel / unknownClassId model
the Python KeyError from a failed dict lookup on a backend-native label;
emptyEvents models the ValueError raised by unpacking zip(*[]) when the
backend returned no events; malformedSegmentation models the converter
failure named MalformedSegmentationError in the spec. -/
inductive CateyeError where
  | unknownLabel : String → CateyeError
  | unknownClassId : Option ℕ → CateyeError
  | emptyEvents : CateyeError
  | malformedSegmentation : CateyeError
deriving DecidableEq

/-- Model of one REMoDNaV event record: fields start_time, end_time, label. -/
structure RemodnavEvent where
  start_time : ℚ
  end_time : ℚ
  label : String
deriving DecidableEq

/-- Model of one nslr_hmm segment object: i is its pair of sample indices
(start, end) and t the corresponding pair of times; the source reads s.t[0],
the segment start time. -/
structure NslrSegment where
  i : ℕ × ℕ
  t : ℚ × ℚ
deriving DecidableEq

/-- Model of the triple returned by nslr_hmm.classify_gaze:
sample_class, segmentation (its list of segments) and seg_class. -/
structure NslrResult where
  sample_class : List (Option ℕ)
  segments : List NslrSegment
  seg_class : List (Option ℕ)
deriving DecidableEq

/-- Modelled from the spec (section 4.2): the per-sample label resolution of
discrete_to_continuous from the missing src/cateye/utils.py.  A sample at
time t receives the label of the last breakpoint not exceeding t; a sample
preceding every breakpoint receives the first label. -/
def sampleLabel {α : Type} [Inhabited α] (bps : List ℚ) (labels : List α) (t : ℚ) : α :=
  (bps.zip labels).foldl (fun acc bl => if bl.1 ≤ t then bl.2 else acc) labels.headI

/-- Modelled from the spec (section 4.2): discrete_to_continuous from the
missing src/cateye/utils.py.  Expands a discrete segmentation (breakpoint
times with parallel labels) into one label per sample of time_vector; the
last breakpoint's label extends to the end.  Requires breakpoints strictly
increasing and labels parallel in length, failing with
malformedSegmentation otherwise. -/
def discrete_to_continuous {α : Type} [Inhabited α] (time_vector : List ℚ)
    (breakpoints : List ℚ) (labels : List α) : Except CateyeError (List ℚ × List α) :=
  if breakpoints.length = labels.length ∧ List.Chain' (fun a b => a < b) breakpoints then
    Except.ok (time_vector, time_vector.map (sampleLabel breakpoints labels))
  else
    Except.error CateyeError.malformedSegmentation

/-- Modelled from the spec (section 4.2): the scan inside
continuous_to_discrete.  Walking the continuous labels from sample index
idx with previous label prev, emit an (index, label) breakpoint at every
sample whose label differs from its predecessor. -/
def c2dAux {α : Type} [DecidableEq α] (prev : α) (idx : ℕ) : List α → List (ℕ × α)
  | [] => []
  | l :: ls => if l = prev then c2dAux prev (idx + 1) ls else (idx, l) :: c2dAux l (idx + 1) ls

/-- Modelled from the spec (section 4.2): continuous_to_discrete from the
missing src/cateye/utils.py.  Emits one breakpoint per label change (the
first sample always starts a segment); breakpoint positions are reported as
the corresponding entries of time_vector. -/
def continuous_to_discrete {α : Type} [DecidableEq α] (time_vector : List ℚ)
    (labels : List α) : List ℚ × List α :=
  match labels with
  | [] => ([], [])
  | l :: ls =>
    let pts := (0, l) :: c2dAux l 1 ls
    (pts.map (fun p => time_vector.getD p.1 0), pts.map Prod.snd)

/-- Model of the list comprehension in cateye.py line 175:
[(ev["start_time"], class_dict[ev["label"]]) for ev in events].
Evaluates left to right and fails at the first label missing from the
table, as the Python KeyError does. -/
def extractList (d : List (String × String)) :
    List RemodnavEvent → Except CateyeError (List (ℚ × String))
  | [] => Except.ok []
  | e :: es =>
    match d.lookup e.label with
    | none => Except.error (CateyeError.unknownLabel e.label)
    | some c =>
      match extractList d es with
      | Except.error err => Except.error err
      | Except.ok rest => Except.ok ((e.start_time, c) :: rest)

/-- Model of cateye.py line 175: segments, classes = zip(*[...]).
Unpacking zip of an empty comprehension raises, modelled as emptyEvents. -/
def extractSegments (d : List (String × String)) (evs : List RemodnavEvent) :
    Except CateyeError (List ℚ × List String) :=
  match extractList d evs with
  | Except.error err => Except.error err
  | Except.ok [] => Except.error CateyeError.emptyEvents
  | Except.ok ps => Except.ok (ps.map Prod.fst, ps.map Prod.snd)

/-- Model of the list comprehension in cateye.py line 92:
[CLASSES[i] for i in classes], failing at the first id missing from the
table, as the Python KeyError does. -/
def mapLabels (tab : List (Option ℕ × String)) :
    List (Option ℕ) → Except CateyeError (List String)
  | [] => Except.ok []
  | c :: cs =>
    match tab.lookup c with
    | none => Except.error (CateyeError.unknownClassId c)
    | some s =>
      match mapLabels tab cs with
      | Except.error err => Except.error err
      | Except.ok rest => Except.ok (s :: rest)

/-- Model of the re-alignment loop body (cateye.py lines 169-171):
events[i]['start_time'] += times[0]; events[i]['end_time'] += times[0]. -/
def alignEvent (t0 : ℚ) (e : RemodnavEvent) : RemodnavEvent :=
  { e with start_time := e.start_time + t0, end_time := e.end_time + t0 }

/-- Model of cateye.py line 158: sampling_rate = 1 / np.mean(times[1:] - times[:-1]). -/
def remodnavRate (times : List ℚ) : ℚ :=
  1 / meanQ (diffsQ times)

/-- Model of the warning condition in cateye.py line 154:
np.std(times[1:] - times[:-1]) > 1e-5, stated on the variance (the square
of np.std) against (1e-5)^2, which is equivalent since both sides of the
source comparison are nonnegative. -/
def remodnavWarned (times : List ℚ) : Bool :=
  decide ((1 / 100000 : ℚ) ^ 2 < varianceQ (diffsQ times))

/-- Result of classify_remodnav: the returned segments and classes, the
warning flag recording whether warnings.warn was called for irregular
sampling, and the (re-aligned) backend events that return_orig_output
would additionally surface. -/
structure RemodnavOutput where
  segments : List ℚ
  classes : List String
  warned : Bool
  events : List RemodnavEvent
deriving DecidableEq

/-- Model of classify_remodnav (cateye.py lines 102-185), with the taxonomy
tables passed explicitly (the module-level globals are supplied by
classify_remodnav below).  The backend parameter bundles
EyegazeClassifier(px2deg, sampling_rate), preproc and the classification
call: it receives px2deg, the sampling rate and the x/y arrays and returns
the event records, local to time origin 0.  times[0] is modelled by headI
(the claims only concern nonempty time vectors). -/
def classify_remodnavCore (tabFull tabSimple : List (String × String))
    (backend : ℚ → ℚ → List ℚ → List ℚ → List RemodnavEvent)
    (x y : List ℚ) (time : List ℚ ⊕ ℚ) (px2deg : ℚ)
    (return_discrete : Bool) (simple_output : Bool) :
    Except CateyeError RemodnavOutput :=
  let times := resolveTimes time x.length
  let events := (backend px2deg (remodnavRate times) x y).map (alignEvent times.headI)
  let class_dict := if simple_output then tabSimple else tabFull
  match extractSegments class_dict events with
  | Except.error err => Except.error err
  | Except.ok (segments, classes) =>
    if return_discrete then Except.ok ⟨segments, classes, remodnavWarned times, events⟩
    else
      match discrete_to_continuous times segments classes with
      | Except.error err => Except.error err
      | Except.ok (seg2, cls2) => Except.ok ⟨seg2, cls2, remodnavWarned times, events⟩

/-- Entry point classify_remodnav with the module-level taxonomy tables. -/
def classify_remodnav (backend : ℚ → ℚ → List ℚ → List ℚ → List RemodnavEvent)
    (x y : List ℚ) (time : List ℚ ⊕ ℚ) (px2deg : ℚ)
    (return_discrete : Bool) (simple_output : Bool) :
    Except CateyeError RemodnavOutput :=
  classify_remodnavCore REMODNAV_CLASSES REMODNAV_SIMPLE backend x y time px2deg
    return_discrete simple_output

/-- Result of classify_nslr_hmm: the returned segments and classes (the
original backend triple that return_orig_output would additionally surface
is the backend's value itself, unchanged). -/
structure NslrOutput where
  segments : List ℚ
  classes : List String
deriving DecidableEq

/-- Model of classify_nslr_hmm (cateye.py lines 37-99), with the CLASSES
table passed explicitly.  The backend parameter models
nslr_hmm.classify_gaze, receiving the time array and the stacked gaze
array (modelled as the zip of x and y).  Discrete segments are the start
times s.t[0] of the backend segments; in continuous mode they are first
expanded with discrete_to_continuous, and in both modes the native ids
are then translated through the table. -/
def classify_nslr_hmmCore (tab : List (Option ℕ × String))
    (backend : List ℚ → List (ℚ × ℚ) → NslrResult)
    (x y : List ℚ) (time : List ℚ ⊕ ℚ) (return_discrete : Bool) :
    Except CateyeError NslrOutput :=
  let times := resolveTimes time x.length
  let r := backend times (x.zip y)
  let segments := r.segments.map (fun s => s.t.1)
  let classes := r.seg_class
  if return_discrete then
    match mapLabels tab classes with
    | Except.error err => Except.error err
    | Except.ok cls => Except.ok ⟨segments, cls⟩
  else
    match discrete_to_continuous times segments classes with
    | Except.error err => Except.error err
    | Except.ok (seg2, cls2) =>
      match mapLabels tab cls2 with
      | Except.error err => Except.error err
      | Except.ok cls3 => Except.ok ⟨seg2, cls3⟩

/-- Entry point classify_nslr_hmm with the module-level CLASSES table. -/
def classify_nslr_hmm (backend : List ℚ → List (ℚ × ℚ) → NslrResult)
    (x y : List ℚ) (time : List ℚ ⊕ ℚ) (return_discrete : Bool) :
    Except CateyeError NslrOutput :=
  classify_nslr_hmmCore CLASSES backend x y time return_discrete

/-- Module-level state of cateye.cateye observable across calls: the three
taxonomy tables (the only module globals the classifiers read). -/
structure CateyeState where
  classesTab : List (Option ℕ × String)
  remodnavTab : List (String × String)
  remodnavSimpleTab : List (String × String)
deriving DecidableEq

/-- Initial module state: the tables as defined at import time. -/
def initState : CateyeState :=
  ⟨CLASSES, REMODNAV_CLASSES, REMODNAV_SIMPLE⟩

/-- State-passing form of classify_remodnav: the call reads the tables from
the module state and performs no write to it (the source contains no
assignment to a module global). -/
def classify_remodnavS (s : CateyeState)
    (backend : ℚ → ℚ → List ℚ → List ℚ → List RemodnavEvent)
    (x y : List ℚ) (time : List ℚ ⊕ ℚ) (px2deg : ℚ)
    (return_discrete : Bool) (simple_output : Bool) :
    Except CateyeError RemodnavOutput × CateyeState :=
  (classify_remodnavCore s.remodnavTab s.remodnavSimpleTab backend x y time px2deg
    return_discrete simple_output, s)

/-- State-passing form of classify_nslr_hmm; no write to the module state. -/
def classify_nslr_hmmS (s : CateyeState)
    (backend : List ℚ → List (ℚ × ℚ) → NslrResult)
    (x y : List ℚ) (time : List ℚ ⊕ ℚ) (return_discrete : Bool) :
    Except CateyeError NslrOutput × CateyeState :=
  (classify_nslr_hmmCore s.classesTab backend x y time return_discrete, s)

/-- Proof helper: the fold of sampleLabel transported to index space; used
only to relate continuous_to_discrete and discrete_to_continuous. -/
def idxFold {α : Type} (pts : List (ℕ × α)) (d : α) (j : ℕ) : α :=
  pts.foldl (fun acc p => if p.1 ≤ j then p.2 else acc) d

end Cateye

namespace Cateye

theorem extractList_ok_fst (d : List (String × String)) (evs : List RemodnavEvent)
    (ps : List (ℚ × String)) (h : extractList d evs = Except.ok ps) :
    ps.map Prod.fst = evs.map (fun e => e.start_time) := by
  induction evs generalizing ps with
  | nil =>
    simp only [extractList] at h
    cases h
    simp
  | cons e es ih =>
    cases hl : d.lookup e.label with
    | none =>
      simp only [extractList, hl] at h
      exact Except.noConfusion h
    | some c =>
      cases hr : extractList d es with
      | error err =>
        simp only [extractList, hl, hr] at h
        exact Except.noConfusion h
      | ok rest =>
        simp only [extractList, hl, hr] at h
        cases h
        simp [ih rest hr]

theorem extractSegments_ok (d : List (String × String)) (evs : List RemodnavEvent)
    (segs : List ℚ) (cls : List String)
    (h : extractSegments d evs = Except.ok (segs, cls)) :
    segs = evs.map (fun e => e.start_time) ∧ evs ≠ [] ∧ segs ≠ [] ∧ cls ≠ [] := by
  unfold extractSegments at h
  split at h
  · exact Except.noConfusion h
  · exact Except.noConfusion h
  · rename_i p hp heq
    cases h
    have h1 := extractList_ok_fst d evs p heq
    have hpne : p ≠ [] := hp
    refine ⟨h1, ?_, ?_, ?_⟩
    · intro hnil
      rw [hnil] at heq
      simp only [extractList] at heq
      cases heq
      exact hpne rfl
    · simp only [ne_eq, List.map_eq_nil_iff]
      exact hpne
    · simp only [ne_eq, List.map_eq_nil_iff]
      exact hpne

/-- C2: with an explicit time vector, classify_remodnav adds time[0] to every
backend event's start and end time before producing any output, so each
returned discrete breakpoint equals the corresponding event's backend-local
start time plus time[0]; the surfaced events likewise carry the re-aligned
times. -/
theorem classify_remodnav_realigns_by_time0
    (backend : ℚ → ℚ → List ℚ → List ℚ → List RemodnavEvent)
    (x y tv : List ℚ) (px2deg : ℚ) (so : Bool) (out : RemodnavOutput)
    (h : classify_remodnav backend x y (Sum.inl tv) px2deg true so = Except.ok out) :
    out.segments =
      (backend px2deg (remodnavRate tv) x y).map (fun e => e.start_time + tv.headI) ∧
    out.events =
      (backend px2deg (remodnavRate tv) x y).map (alignEvent tv.headI) := by
  simp only [classify_remodnav, classify_remodnavCore, resolveTimes] at h
  cases hx : extractSegments (if so then REMODNAV_SIMPLE else REMODNAV_CLASSES)
      ((backend px2deg (remodnavRate tv) x y).map (alignEvent tv.headI)) with
  | error err => rw [hx] at h; cases h
  | ok sc =>
    obtain ⟨segs, cls⟩ := sc
    rw [hx] at h
    simp only [if_true] at h
    cases h
    have h1 := (extractSegments_ok _ _ _ _ hx).1
    constructor
    · rw [show (⟨segs, cls, remodnavWarned tv,
          (backend px2deg (remodnavRate tv) x y).map (alignEvent tv.headI)⟩ :
          RemodnavOutput).segments = segs from rfl, h1]
      simp [List.map_map, Function.comp, alignEvent]
    · rfl

/-- C2 witness: for time starting at 10 and one backend event starting
locally at 0, the first returned segment start is 0 + 10 = 10. -/
theorem classify_remodnav_realigns_by_time0_witness :
    (⟨[0 + (10 : ℚ)], ["Fixation"], remodnavWarned [10, 101/10],
        [alignEvent (10 : ℚ) ⟨0, 1, "FIXA"⟩]⟩ : RemodnavOutput).segments =
      ((fun _ _ _ _ => [(⟨0, 1, "FIXA"⟩ : RemodnavEvent)]) (1 : ℚ)
          (remodnavRate [10, 101/10]) [0, 0] [0, 0]).map
        (fun e => e.start_time + ([(10 : ℚ), 101/10]).headI) ∧
    (⟨[0 + (10 : ℚ)], ["Fixation"], remodnavWarned [10, 101/10],
        [alignEvent (10 : ℚ) ⟨0, 1, "FIXA"⟩]⟩ : RemodnavOutput).events =
      ((fun _ _ _ _ => [(⟨0, 1, "FIXA"⟩ : RemodnavEvent)]) (1 : ℚ)
          (remodnavRate [10, 101/10]) [0, 0] [0, 0]).map
        (alignEvent ([(10 : ℚ), 101/10]).headI) :=
  classify_remodnav_realigns_by_time0 (fun _ _ _ _ => [⟨0, 1, "FIXA"⟩])
    [0, 0] [0, 0] [10, 101/10] 1 false _ rfl

/-- C1: the spec claims that for scalar sampling rate r and x of length N the
synthesized time vector is [0, 1/r, ..., (N-1)/r] of length N, with
[0, 0.5, 1.0, 1.5, 2.0] for r = 2 and N = 5.  The code instead computes
np.arange(0, len(x), 1/time), which at r = 2, N = 5 yields the 10-element
vector [0, 0.5, ..., 4.5]: the code contradicts the documented intent of a
time vector parallel to x. -/
theorem resolveTimes_scalar_rate_bug :
    resolveTimes (Sum.inr 2) 5 =
      [0, 1/2, 1, 3/2, 2, 5/2, 3, 7/2, 4, 9/2] ∧
    (resolveTimes (Sum.inr 2) 5).length = 10 ∧
    resolveTimes (Sum.inr 2) 5 ≠ [0, 1/2, 1, 3/2, 2] := by
  have h2 : Int.ceil (((5 : ℕ) : ℚ) / (1 / 2)) = 10 := by norm_num
  have h : (Int.ceil (((5 : ℕ) : ℚ) / (1 / 2))).toNat = 10 := by rw [h2]; rfl
  have e1 : resolveTimes (Sum.inr 2) 5 = [0, 1/2, 1, 3/2, 2, 5/2, 3, 7/2, 4, 9/2] := by
    simp only [resolveTimes, arangeQ]
    rw [h]
    simp [List.range_succ]
    norm_num
  refine ⟨e1, ?_, ?_⟩
  · rw [e1]; rfl
  · rw [e1]; simp

/-- C6: each of the eight REMoDNaV codes maps to exactly one canonical label
in the full and in the simplified table (keys are exactly the eight codes,
without duplicates, in both); the two tables have identical key sets; the
simplified values all lie in the base category set, collapsing ISAC into
Saccade and the four PSO variants into PSO; and each nslr_hmm class id maps
to exactly one canonical label in CLASSES (its keys are duplicate-free). -/
theorem label_tables_wellformed :
    REMODNAV_CLASSES.map Prod.fst =
      ["FIXA", "SACC", "ISAC", "PURS", "HPSO", "LPSO", "IHPS", "ILPS"] ∧
    REMODNAV_SIMPLE.map Prod.fst = REMODNAV_CLASSES.map Prod.fst ∧
    (REMODNAV_CLASSES.map Prod.fst).Nodup ∧
    (REMODNAV_SIMPLE.map Prod.fst).Nodup ∧
    (∀ p ∈ REMODNAV_SIMPLE, p.2 ∈ ["Fixation", "Saccade", "Smooth Pursuit", "PSO"]) ∧
    REMODNAV_SIMPLE.lookup "ISAC" = some "Saccade" ∧
    REMODNAV_SIMPLE.lookup "HPSO" = some "PSO" ∧
    REMODNAV_SIMPLE.lookup "LPSO" = some "PSO" ∧
    REMODNAV_SIMPLE.lookup "IHPS" = some "PSO" ∧
    REMODNAV_SIMPLE.lookup "ILPS" = some "PSO" ∧
    (CLASSES.map Prod.fst).Nodup := by
  decide

/-- C9: both entry points are deterministic and stateless.  In the
state-passing model of the module (state = the three taxonomy tables, the
only module globals the classifiers read), running the same call twice with
identical inputs yields identical outputs, every call leaves the module
state unchanged, and a preceding call of either entry point does not change
the output of a later call. -/
theorem classify_deterministic_stateless :
    (∀ s backend x y time px2deg rd so,
      (classify_remodnavS ((classify_remodnavS s backend x y time px2deg rd so).2)
          backend x y time px2deg rd so).1 =
        (classify_remodnavS s backend x y time px2deg rd so).1 ∧
      (classify_remodnavS s backend x y time px2deg rd so).2 = s) ∧
    (∀ s backend x y time rd,
      (classify_nslr_hmmS ((classify_nslr_hmmS s backend x y time rd).2)
          backend x y time rd).1 =
        (classify_nslr_hmmS s backend x y time rd).1 ∧
      (classify_nslr_hmmS s backend x y time rd).2 = s) ∧
    (∀ s bkR bkN xr yr tr px2deg rd so xn yn tn rdn,
      (classify_remodnavS ((classify_nslr_hmmS s bkN xn yn tn rdn).2)
          bkR xr yr tr px2deg rd so).1 =
        (classify_remodnavS s bkR xr yr tr px2deg rd so).1 ∧
      (classify_nslr_hmmS ((classify_remodnavS s bkR xr yr tr px2deg rd so).2)
          bkN xn yn tn rdn).1 =
        (classify_nslr_hmmS s bkN xn yn tn rdn).1) :=
  ⟨fun _ _ _ _ _ _ _ _ => ⟨rfl, rfl⟩,
   fun _ _ _ _ _ _ => ⟨rfl, rfl⟩,
   fun _ _ _ _ _ _ _ _ _ _ _ _ _ => ⟨rfl, rfl⟩⟩

/-- C10: if the backend returns no events, classify_remodnav fails at the
extraction step (in either output mode) instead of returning empty results;
conversely a successful discrete-mode call received at least one backend
event and returns nonempty segments and classes. -/
theorem classify_remodnav_empty_backend
    (backend : ℚ → ℚ → List ℚ → List ℚ → List RemodnavEvent)
    (x y : List ℚ) (time : List ℚ ⊕ ℚ) (px2deg : ℚ) (so : Bool) :
    (backend px2deg (remodnavRate (resolveTimes time x.length)) x y = [] →
      ∀ rd, classify_remodnav backend x y time px2deg rd so =
        Except.error CateyeError.emptyEvents) ∧
    (∀ out, classify_remodnav backend x y time px2deg true so = Except.ok out →
      backend px2deg (remodnavRate (resolveTimes time x.length)) x y ≠ [] ∧
      out.segments ≠ [] ∧ out.classes ≠ []) := by
  constructor
  · intro he rd
    simp only [classify_remodnav, classify_remodnavCore, he]
    simp [extractSegments, extractList]
  · intro out h
    simp only [classify_remodnav, classify_remodnavCore] at h
    cases hx : extractSegments (if so then REMODNAV_SIMPLE else REMODNAV_CLASSES)
        ((backend px2deg (remodnavRate (resolveTimes time x.length)) x y).map
          (alignEvent (resolveTimes time x.length).headI)) with
    | error err => rw [hx] at h; exact Except.noConfusion h
    | ok sc =>
      obtain ⟨segs, cls⟩ := sc
      rw [hx] at h
      simp only [if_true] at h
      cases h
      obtain ⟨-, hne, hs, hc⟩ := extractSegments_ok _ _ _ _ hx
      refine ⟨?_, hs, hc⟩
      intro hnil
      rw [hnil] at hne
      simp at hne

/-- C10 witness: a backend returning no events makes classify_remodnav fail
with emptyEvents. -/
theorem classify_remodnav_empty_backend_witness :
    classify_remodnav (fun _ _ _ _ => []) [0] [0] (Sum.inl [0]) 1 true false =
      Except.error CateyeError.emptyEvents :=
  (classify_remodnav_empty_backend (fun _ _ _ _ => []) [0] [0] (Sum.inl [0]) 1 false).1
    rfl true

theorem extractList_error_of_bad (d : List (String × String)) (evs : List RemodnavEvent)
    (hbad : ∃ e ∈ evs, d.lookup e.label = none) :
    ∃ l, d.lookup l = none ∧
      extractList d evs = Except.error (CateyeError.unknownLabel l) := by
  induction evs with
  | nil => simp at hbad
  | cons e es ih =>
    cases hl : d.lookup e.label with
    | none => exact ⟨e.label, hl, by simp only [extractList, hl]⟩
    | some c =>
      obtain ⟨e2, he2, hl2⟩ := hbad
      rcases List.mem_cons.mp he2 with rfl | hmem
      · rw [hl] at hl2
        exact Option.noConfusion hl2
      · obtain ⟨l, hln, hle⟩ := ih ⟨e2, hmem, hl2⟩
        exact ⟨l, hln, by simp only [extractList, hl, hle]⟩

theorem mapLabels_error_of_bad (tab : List (Option ℕ × String)) (cs : List (Option ℕ))
    (hbad : ∃ c ∈ cs, tab.lookup c = none) :
    ∃ c, tab.lookup c = none ∧
      mapLabels tab cs = Except.error (CateyeError.unknownClassId c) := by
  induction cs with
  | nil => simp at hbad
  | cons c cs ih =>
    cases hl : tab.lookup c with
    | none => exact ⟨c, hl, by simp only [mapLabels, hl]⟩
    | some s =>
      obtain ⟨c2, hc2, hl2⟩ := hbad
      rcases List.mem_cons.mp hc2 with rfl | hmem
      · rw [hl] at hl2
        exact Option.noConfusion hl2
      · obtain ⟨c3, hcn, hce⟩ := ih ⟨c2, hmem, hl2⟩
        exact ⟨c3, hcn, by simp only [mapLabels, hl, hce]⟩

/-- C4: a backend-native label absent from the corresponding taxonomy table
makes the classification call fail with the error of the failed lookup (the
spec's UnknownLabelError), which propagates to the caller: for
classify_remodnav in either output mode, and for classify_nslr_hmm in
discrete mode (the same lookup runs in continuous mode on the expanded
per-sample ids).  No unknown label is silently mapped to "None": the
REMoDNaV tables never produce "None", and in CLASSES only the dedicated
sentinel key none (Python None, the unclassified-sample id) maps to
"None". -/
theorem unknown_label_fatal :
    (∀ (backend : ℚ → ℚ → List ℚ → List ℚ → List RemodnavEvent) x y time px2deg rd so,
      (∃ e ∈ backend px2deg (remodnavRate (resolveTimes time x.length)) x y,
        (if so then REMODNAV_SIMPLE else REMODNAV_CLASSES).lookup e.label = none) →
      ∃ l, (if so then REMODNAV_SIMPLE else REMODNAV_CLASSES).lookup l = none ∧
        classify_remodnav backend x y time px2deg rd so =
          Except.error (CateyeError.unknownLabel l)) ∧
    (∀ (backend : List ℚ → List (ℚ × ℚ) → NslrResult) x y time,
      (∃ c ∈ (backend (resolveTimes time x.length) (x.zip y)).seg_class,
        CLASSES.lookup c = none) →
      ∃ c, CLASSES.lookup c = none ∧
        classify_nslr_hmm backend x y time true =
          Except.error (CateyeError.unknownClassId c)) ∧
    (∀ p ∈ REMODNAV_CLASSES, p.2 ≠ "None") ∧
    (∀ p ∈ REMODNAV_SIMPLE, p.2 ≠ "None") ∧
    (∀ p ∈ CLASSES, p.2 = "None" → p.1 = none) := by
  refine ⟨?_, ?_, by decide, by decide, by decide⟩
  · intro backend x y time px2deg rd so hbad
    have hbad2 : ∃ e ∈ (backend px2deg (remodnavRate (resolveTimes time x.length)) x y).map
        (alignEvent (resolveTimes time x.length).headI),
        (if so then REMODNAV_SIMPLE else REMODNAV_CLASSES).lookup e.label = none := by
      obtain ⟨e, he, hl⟩ := hbad
      exact ⟨alignEvent (resolveTimes time x.length).headI e,
        List.mem_map_of_mem _ he, hl⟩
    obtain ⟨l, hln, hle⟩ := extractList_error_of_bad _ _ hbad2
    refine ⟨l, hln, ?_⟩
    simp only [classify_remodnav, classify_remodnavCore, extractSegments, hle]
  · intro backend x y time hbad
    obtain ⟨c, hcn, hce⟩ := mapLabels_error_of_bad _ _ hbad
    refine ⟨c, hcn, ?_⟩
    simp only [classify_nslr_hmm, classify_nslr_hmmCore, if_true, hce]

/-- C4 witness: a backend event labelled XXXX, absent from REMODNAV_CLASSES,
makes classify_remodnav fail with the unknown-label error. -/
theorem unknown_label_fatal_witness :
    ∃ l, (if false then REMODNAV_SIMPLE else REMODNAV_CLASSES).lookup l = none ∧
      classify_remodnav (fun _ _ _ _ => [⟨0, 1, "XXXX"⟩]) [0] [0] (Sum.inl [0]) 1
          true false =
        Except.error (CateyeError.unknownLabel l) :=
  unknown_label_fatal.1 (fun _ _ _ _ => [⟨0, 1, "XXXX"⟩]) [0] [0] (Sum.inl [0]) 1
    true false ⟨⟨0, 1, "XXXX"⟩, by simp, by decide⟩

/-- C8 counterexample: the claim reads the discrete breakpoints of
classify_nslr_hmm as the backend segments' start indices.  For a backend
segment with sample-index span (0, 1) and time span (10, 11) the code
returns the start time 10, not the start index 0. -/
theorem nslr_segments_start_index_counterexample :
    classify_nslr_hmm
        (fun _ _ => ⟨[some FIXATION], [⟨(0, 1), (10, 11)⟩], [some FIXATION]⟩)
        [0] [0] (Sum.inl [10]) true =
      Except.ok ⟨[10], ["Fixation"]⟩ ∧
    (Except.ok (⟨[10], ["Fixation"]⟩ : NslrOutput) : Except CateyeError NslrOutput) ≠
      Except.ok ⟨[((0 : ℕ) : ℚ)], ["Fixation"]⟩ := by
  constructor
  · rfl
  · intro hcontra
    norm_num at hcontra

/-- C8 (amended): the discrete breakpoints derived by classify_nslr_hmm are
exactly the ordered list of each backend segment's start TIME (the first
component of its time attribute t), one breakpoint per backend segment, in
backend order. -/
theorem nslr_segments_are_start_times
    (backend : List ℚ → List (ℚ × ℚ) → NslrResult)
    (x y : List ℚ) (time : List ℚ ⊕ ℚ) (out : NslrOutput)
    (h : classify_nslr_hmm backend x y time true = Except.ok out) :
    out.segments =
      (backend (resolveTimes time x.length) (x.zip y)).segments.map (fun s => s.t.1) := by
  simp only [classify_nslr_hmm, classify_nslr_hmmCore, if_true] at h
  cases hm : mapLabels CLASSES (backend (resolveTimes time x.length) (x.zip y)).seg_class with
  | error err => rw [hm] at h; exact Except.noConfusion h
  | ok cls => rw [hm] at h; cases h; rfl

/-- C8 witness: for a backend returning one segment with time span (10, 11),
the discrete segments are [10]. -/
theorem nslr_segments_are_start_times_witness :
    (⟨[10], ["Fixation"]⟩ : NslrOutput).segments =
      ((fun _ _ =>
          (⟨[some FIXATION], [⟨(0, 1), (10, 11)⟩], [some FIXATION]⟩ : NslrResult))
        (resolveTimes (Sum.inl [10]) ([(0 : ℚ)]).length)
        (([(0 : ℚ)]).zip [0])).segments.map (fun s => s.t.1) :=
  nslr_segments_are_start_times
    (fun _ _ => ⟨[some FIXATION], [⟨(0, 1), (10, 11)⟩], [some FIXATION]⟩)
    [0] [0] (Sum.inl [10]) _ rfl

theorem c2dAux_snd_chain {α : Type} [DecidableEq α] (ls : List α) (prev : α) (i : ℕ) :
    List.Chain' (fun a b => a ≠ b) (prev :: (c2dAux prev i ls).map Prod.snd) := by
  induction ls generalizing prev i with
  | nil => simp [c2dAux]
  | cons l ls ih =>
    by_cases hlp : l = prev
    · simp only [c2dAux, if_pos hlp]
      exact ih prev (i + 1)
    · simp only [c2dAux, if_neg hlp, List.map_cons]
      exact List.chain'_cons.mpr ⟨fun h => hlp h.symm, ih l (i + 1)⟩

/-- C7: continuous_to_discrete never emits two consecutive segments with
equal labels: in every discrete segmentation it produces, each breakpoint's
label differs from the previous breakpoint's label. -/
theorem continuous_to_discrete_no_redundant {α : Type} [DecidableEq α]
    (time_vector : List ℚ) (labels : List α) :
    List.Chain' (fun a b => a ≠ b) (continuous_to_discrete time_vector labels).2 := by
  cases labels with
  | nil => simp [continuous_to_discrete]
  | cons l ls =>
    simp only [continuous_to_discrete, List.map_cons]
    exact c2dAux_snd_chain ls l 1

theorem idxFold_cons {α : Type} (p : ℕ × α) (pts : List (ℕ × α)) (d : α) (j : ℕ) :
    idxFold (p :: pts) d j = idxFold pts (if p.1 ≤ j then p.2 else d) j :=
  rfl

theorem idxFold_of_all_gt {α : Type} (pts : List (ℕ × α)) (d : α) (j : ℕ)
    (h : ∀ p ∈ pts, j < p.1) : idxFold pts d j = d := by
  induction pts generalizing d with
  | nil => rfl
  | cons p pts ih =>
    rw [idxFold_cons, if_neg (Nat.not_le.mpr (h p (List.mem_cons_self p pts)))]
    exact ih d fun q hq => h q (List.mem_cons_of_mem p hq)

theorem c2dAux_fst_bounds {α : Type} [DecidableEq α] (ls : List α) (prev : α) (i : ℕ) :
    ∀ p ∈ c2dAux prev i ls, i ≤ p.1 ∧ p.1 < i + ls.length := by
  induction ls generalizing prev i with
  | nil => simp [c2dAux]
  | cons l ls ih =>
    intro p hp
    by_cases hlp : l = prev
    · rw [c2dAux, if_pos hlp] at hp
      obtain ⟨h1, h2⟩ := ih prev (i + 1) p hp
      simp only [List.length_cons]
      omega
    · rw [c2dAux, if_neg hlp] at hp
      rcases List.mem_cons.mp hp with rfl | hmem
      · simp only [List.length_cons]
        omega
      · obtain ⟨h1, h2⟩ := ih l (i + 1) p hmem
        simp only [List.length_cons]
        omega

theorem c2dAux_fst_chain {α : Type} [DecidableEq α] (ls : List α) (prev : α) (i : ℕ) :
    List.Chain' (fun p q : ℕ × α => p.1 < q.1) (c2dAux prev i ls) := by
  induction ls generalizing prev i with
  | nil => simp [c2dAux]
  | cons l ls ih =>
    by_cases hlp : l = prev
    · simp only [c2dAux, if_pos hlp]
      exact ih prev (i + 1)
    · simp only [c2dAux, if_neg hlp]
      refine List.chain'_cons'.mpr ⟨?_, ih l (i + 1)⟩
      intro q hq
      have hb := (c2dAux_fst_bounds ls l (i + 1) q (List.mem_of_mem_head? hq)).1
      exact (by omega : i < q.1)

theorem idxFold_c2dAux {α : Type} [DecidableEq α] (ls : List α) (prev : α) (i j : ℕ)
    (hj : j < i ∨ j - i < ls.length) :
    idxFold (c2dAux prev i ls) prev j =
      if i ≤ j then ls.getD (j - i) prev else prev := by
  induction ls generalizing prev i with
  | nil => simp [c2dAux, idxFold]
  | cons l ls ih =>
    have hj2 : j < i + 1 ∨ j - (i + 1) < ls.length := by
      simp only [List.length_cons] at hj
      omega
    by_cases hlp : l = prev
    · rw [c2dAux, if_pos hlp, ih prev (i + 1) hj2]
      by_cases h1 : i ≤ j
      · by_cases h2 : i + 1 ≤ j
        · rw [if_pos h2, if_pos h1]
          have he : j - i = (j - (i + 1)) + 1 := by omega
          rw [he, List.getD_cons_succ]
        · have hji : j = i := by omega
          rw [if_neg h2, if_pos h1, hji, Nat.sub_self, List.getD_cons_zero]
          exact hlp.symm
      · rw [if_neg (by omega : ¬ i + 1 ≤ j), if_neg h1]
    · rw [c2dAux, if_neg hlp, idxFold_cons]
      by_cases h1 : i ≤ j
      · rw [if_pos (h1 : (i, l).1 ≤ j), ih l (i + 1) hj2]
        by_cases h2 : i + 1 ≤ j
        · rw [if_pos h2, if_pos h1]
          have he : j - i = (j - (i + 1)) + 1 := by omega
          have hb : j - (i + 1) < ls.length := by
            simp only [List.length_cons] at hj
            omega
          rw [he, List.getD_cons_succ, List.getD_eq_getElem ls l hb,
            List.getD_eq_getElem ls prev hb]
        · have hji : j = i := by omega
          rw [if_neg h2, if_pos h1, hji, Nat.sub_self, List.getD_cons_zero]
      · rw [if_neg (h1 : ¬ (i, l).1 ≤ j),
          idxFold_of_all_gt _ _ _ (fun q hq => by
            have hb := (c2dAux_fst_bounds ls l (i + 1) q hq).1
            omega),
          if_neg h1]

theorem idxFold_top {α : Type} [DecidableEq α] (l : α) (ls : List α) (n : ℕ)
    (hn : n < ls.length + 1) :
    idxFold ((0, l) :: c2dAux l 1 ls) l n = (l :: ls).getD n l := by
  rw [idxFold_cons, if_pos (Nat.zero_le n : ((0 : ℕ), l).1 ≤ n),
    idxFold_c2dAux ls l 1 n (by omega)]
  cases n with
  | zero => rw [if_neg (by omega), List.getD_cons_zero]
  | succ m =>
    rw [if_pos (by omega), List.getD_cons_succ]
    simp

theorem getD_lt_getD (tv : List ℚ) (hpw : List.Pairwise (fun a b => a < b) tv)
    (a b : ℕ) (ha : a < tv.length) (hb : b < tv.length) (hab : a < b) :
    tv.getD a 0 < tv.getD b 0 := by
  rw [List.getD_eq_getElem tv 0 ha, List.getD_eq_getElem tv 0 hb]
  exact List.pairwise_iff_getElem.mp hpw a b ha hb hab

theorem getD_le_getD_iff (tv : List ℚ) (hpw : List.Pairwise (fun a b => a < b) tv)
    (a b : ℕ) (ha : a < tv.length) (hb : b < tv.length) :
    tv.getD a 0 ≤ tv.getD b 0 ↔ a ≤ b := by
  constructor
  · intro h
    by_contra hab
    exact absurd h (not_le.mpr (getD_lt_getD tv hpw b a hb ha (by omega)))
  · intro h
    rcases Nat.eq_or_lt_of_le h with rfl | hlt
    · exact le_refl _
    · exact le_of_lt (getD_lt_getD tv hpw a b ha hb hlt)

theorem foldl_time_to_idx {α : Type} (tv : List ℚ) (pts : List (ℕ × α)) (d : α) (n : ℕ)
    (hn : n < tv.length) (hbnd : ∀ p ∈ pts, p.1 < tv.length)
    (hpw : List.Pairwise (fun a b => a < b) tv) :
    ((pts.map (fun p => tv.getD p.1 0)).zip (pts.map Prod.snd)).foldl
        (fun acc bl => if bl.1 ≤ tv.getD n 0 then bl.2 else acc) d =
      idxFold pts d n := by
  rw [List.zip_map', List.foldl_map]
  apply List.foldl_ext
  intro acc p hp
  exact if_congr (getD_le_getD_iff tv hpw p.1 n (hbnd p hp) hn) rfl rfl

/-- C5: round trip.  Converting a continuous labeling to discrete form with
continuous_to_discrete and expanding the resulting breakpoints and labels
back with discrete_to_continuous over the same (strictly increasing,
equal-length) time vector reproduces the labeling exactly. -/
theorem round_trip_continuous_discrete {α : Type} [DecidableEq α] [Inhabited α]
    (tv : List ℚ) (labels : List α)
    (hchain : List.Chain' (fun a b => a < b) tv)
    (hlen : labels.length = tv.length) :
    discrete_to_continuous tv (continuous_to_discrete tv labels).1
        (continuous_to_discrete tv labels).2 =
      Except.ok (tv, labels) := by
  cases labels with
  | nil =>
    have htv : tv = [] := List.length_eq_zero.mp hlen.symm
    subst htv
    rfl
  | cons l ls =>
    have hpw : List.Pairwise (fun a b : ℚ => a < b) tv :=
      List.chain'_iff_pairwise.mp hchain
    have hlen2 : tv.length = ls.length + 1 := by
      simpa using hlen.symm
    simp only [continuous_to_discrete]
    have hbnd : ∀ p ∈ (0, l) :: c2dAux l 1 ls, p.1 < tv.length := by
      intro p hp
      rcases List.mem_cons.mp hp with rfl | hmem
      · exact (by omega : (0 : ℕ) < tv.length)
      · have hb := (c2dAux_fst_bounds ls l 1 p hmem).2
        omega
    have hidx : List.Chain' (fun p q : ℕ × α => p.1 < q.1) ((0, l) :: c2dAux l 1 ls) := by
      refine List.chain'_cons'.mpr ⟨?_, c2dAux_fst_chain ls l 1⟩
      intro q hq
      have hb := (c2dAux_fst_bounds ls l 1 q (List.mem_of_mem_head? hq)).1
      exact (by omega : (0 : ℕ) < q.1)
    haveI : IsTrans (ℕ × α) (fun p q => p.1 < q.1) :=
      ⟨fun _ _ _ h1 h2 => Nat.lt_trans h1 h2⟩
    have hptspw := List.chain'_iff_pairwise.mp hidx
    have hbpspw : List.Pairwise (fun a b : ℚ => a < b)
        (((0, l) :: c2dAux l 1 ls).map (fun p => tv.getD p.1 0)) := by
      rw [List.pairwise_map]
      refine List.Pairwise.imp_of_mem ?_ hptspw
      intro a b ha hb hab
      exact getD_lt_getD tv hpw a.1 b.1 (hbnd a ha) (hbnd b hb) hab
    have hbps : List.Chain' (fun a b : ℚ => a < b)
        (((0, l) :: c2dAux l 1 ls).map (fun p => tv.getD p.1 0)) :=
      List.chain'_iff_pairwise.mpr hbpspw
    unfold discrete_to_continuous
    rw [if_pos ⟨by simp, hbps⟩]
    refine congrArg Except.ok (congrArg (Prod.mk tv) ?_)
    apply List.ext_get (by simp [hlen2])
    intro n h1 h2
    have hn : n < tv.length := by simpa using h1
    simp only [List.get_eq_getElem, List.getElem_map]
    rw [← List.getD_eq_getElem tv 0 hn]
    simp only [sampleLabel]
    rw [show (List.map Prod.snd ((0, l) :: c2dAux l 1 ls)).headI = l by simp]
    rw [foldl_time_to_idx tv ((0, l) :: c2dAux l 1 ls) l n hn hbnd hpw,
      idxFold_top l ls n (by omega)]
    exact List.getD_eq_getElem (l :: ls) l h2

/-- C5 witness: a concrete round trip over the time vector [0, 1, 2]. -/
theorem round_trip_continuous_discrete_witness :
    discrete_to_continuous [(0 : ℚ), 1, 2]
        (continuous_to_discrete [(0 : ℚ), 1, 2] ["A", "A", "B"]).1
        (continuous_to_discrete [(0 : ℚ), 1, 2] ["A", "A", "B"]).2 =
      Except.ok ([(0 : ℚ), 1, 2], ["A", "A", "B"]) :=
  round_trip_continuous_discrete [(0 : ℚ), 1, 2] ["A", "A", "B"]
    (by norm_num) rfl

/-- C3: for an explicit time vector (with at least two samples, so that the
consecutive differences are nonempty) whose differences have standard
deviation exceeding 1e-5 — equivalently, variance exceeding 1e-10 — the
call does not raise on that account: it succeeds and records the
irregular-sampling warning; the sampling rate handed to the backend equals
1 / mean(diff(time)), observed here through a backend that echoes its rate
argument into its event times; and within the tolerance no warning is
emitted. -/
theorem classify_remodnav_irregular_sampling (tv x y : List ℚ) (px2deg : ℚ)
    (_hlen : 2 ≤ tv.length) :
    ((1 / 100000 : ℚ) ^ 2 < varianceQ (diffsQ tv) →
      classify_remodnav (fun _ rate _ _ => [⟨rate, rate, "FIXA"⟩]) x y (Sum.inl tv)
          px2deg true false =
        Except.ok ⟨[remodnavRate tv + tv.headI], ["Fixation"], true,
          [⟨remodnavRate tv + tv.headI, remodnavRate tv + tv.headI, "FIXA"⟩]⟩) ∧
    (varianceQ (diffsQ tv) ≤ (1 / 100000 : ℚ) ^ 2 →
      classify_remodnav (fun _ rate _ _ => [⟨rate, rate, "FIXA"⟩]) x y (Sum.inl tv)
          px2deg true false =
        Except.ok ⟨[remodnavRate tv + tv.headI], ["Fixation"], false,
          [⟨remodnavRate tv + tv.headI, remodnavRate tv + tv.headI, "FIXA"⟩]⟩) := by
  have hbase : classify_remodnav (fun _ rate _ _ => [⟨rate, rate, "FIXA"⟩]) x y
      (Sum.inl tv) px2deg true false =
      Except.ok ⟨[remodnavRate tv + tv.headI], ["Fixation"], remodnavWarned tv,
        [⟨remodnavRate tv + tv.headI, remodnavRate tv + tv.headI, "FIXA"⟩]⟩ := rfl
  constructor
  · intro h
    rw [hbase, show remodnavWarned tv = true from decide_eq_true h]
  · intro h
    rw [hbase, show remodnavWarned tv = false from decide_eq_false (not_lt.mpr h)]

/-- C3 witness: the spec's irregular example time = [0, 1, 2, 3.5, 4] has
diff variance 1/8 above the tolerance; the call succeeds with the warning
flag set, and the backend received rate 1 / mean(diff) = 1. -/
theorem classify_remodnav_irregular_sampling_witness :
    classify_remodnav (fun _ rate _ _ => [⟨rate, rate, "FIXA"⟩])
        [0, 0, 0, 0, 0] [0, 0, 0, 0, 0] (Sum.inl [0, 1, 2, 7/2, 4]) 1 true false =
      Except.ok ⟨[remodnavRate [0, 1, 2, 7/2, 4] + ([(0 : ℚ), 1, 2, 7/2, 4]).headI],
        ["Fixation"], true,
        [⟨remodnavRate [0, 1, 2, 7/2, 4] + ([(0 : ℚ), 1, 2, 7/2, 4]).headI,
          remodnavRate [0, 1, 2, 7/2, 4] + ([(0 : ℚ), 1, 2, 7/2, 4]).headI, "FIXA"⟩]⟩ :=
  (classify_remodnav_irregular_sampling [0, 1, 2, 7/2, 4] [0, 0, 0, 0, 0]
      [0, 0, 0, 0, 0] 1 (by decide)).1
    (by norm_num [varianceQ, meanQ, diffsQ])

end Cateye
